import Mathlib

/-!
Verification development for the WB_L3 repository (service 5: event-booking
reservation engine plus a Redis-backed retryable task queue).

The Go source is shallowly embedded:
  * durations and timestamps are `Int` (a fixed unit, e.g. nanoseconds);
    two's-complement overflow is not modelled, so theorems about exponential
    backoff are restricted to the non-overflowing range;
  * random draws (jitter, generated ids) are explicit parameters, matching
    the spec's requirement that clocks and random sources be injectable;
  * the relational store is a pure `DB` value, each repository/service
    operation is a function `DB → args → DB × Except BErr α`; the `DB`
    component is the state after the operation, whether or not it failed
    (the confirm path mutates the store even on its failure return);
  * the Redis queue is a pure `QState`: lists model Redis lists (head of the
    Lean list is the Redis left end), the delayed sorted set is a list of
    score/payload pairs, and a payload on the wire is `Wire` (`good t` for a
    task that deserializes to `t`, `bad raw` for malformed bytes).
-/

namespace WBL3

/-! ## Task model (pkg/queue: Task) -/

/-- A queue task, mirroring `Task` from `pkg/queue`.  `executeAt = 0` and
`createdAt = 0` play the role of Go's `time.Time{}.IsZero()`. The payload map
`data` is `none` for a Go `nil` map. -/
structure QTask where
  id : String
  type : String
  data : Option (List (String × String))
  executeAt : Int
  createdAt : Int
  attempts : Int
  maxRetries : Int
  deriving Repr, DecidableEq

/-! ## Retry policy (pkg/queue: retryManager.go) -/

/-- The `RetryManager` from the source: `maxDelay` is fixed to `16 * baseDelay`
by both the constructor and `SetBaseDelay`. -/
structure RetryManager where
  maxRetries : Int
  baseDelay : Int
  maxDelay : Int
  deriving Repr, DecidableEq

/-- The `NewRetryManager(maxRetries, baseDelay)`. -/
def NewRetryManager (maxRetries baseDelay : Int) : RetryManager :=
  { maxRetries := maxRetries, baseDelay := baseDelay, maxDelay := baseDelay * 16 }

/-- The `l.startsWithSeq p` : the character list `p` is a prefix of `l`. -/
def startsWithSeq : List Char → List Char → Bool
  | _, [] => true
  | [], _ :: _ => false
  | c :: cs, d :: ds => c = d && startsWithSeq cs ds

/-- The `containsSeq l p` : `p` occurs contiguously inside `l` (Go
`strings.Contains`). -/
def containsSeq : List Char → List Char → Bool
  | [], p => startsWithSeq [] p
  | c :: t, p => startsWithSeq (c :: t) p || containsSeq t p

/-- Go `strings.Contains(s, sub)` on strings. -/
def strContains (s sub : String) : Bool :=
  containsSeq s.toList sub.toList

/-- Go `strings.ToLower` (ASCII is all the source's patterns need). -/
def strToLower (s : String) : String :=
  String.mk (s.toList.map Char.toLower)

/-- The non-retryable error substrings from `isRetryableError`. -/
def nonRetryablePatterns : List String :=
  ["invalid", "not found", "permission denied", "validation failed"]

/-- The `RetryManager.isRetryableError`: `nil` errors are not retryable; an error
whose lowered message contains one of the patterns is not retryable. -/
def isRetryableError (err : Option String) : Bool :=
  match err with
  | none => false
  | some msg =>
      nonRetryablePatterns.all
        (fun pat => !(strContains (strToLower msg) (strToLower pat)))

/-- The `RetryManager.calculateBackoff(attempt)` with the two random draws made
explicit: `draw` is the result of `rand.Int63n(backoff/2)` (so callers supply
`0 ≤ draw < backoff/2`) and `coin` the result of `rand.Intn(2) == 0`
(`true` means the jitter is added).  The cap at `maxDelay` is applied after
the jitter, exactly as in the source. -/
def calculateBackoff (r : RetryManager) (attempt : Int) (draw : Int) (coin : Bool) : Int :=
  if attempt ≤ 0 then
    r.baseDelay
  else
    let backoff := r.baseDelay * 2 ^ (attempt - 1).toNat
    let backoff := if coin then backoff + draw else backoff - draw
    if backoff > r.maxDelay then r.maxDelay else backoff

/-- The `RetryManager.ShouldRetry(task, err)` with explicit jitter draws. -/
def ShouldRetry (r : RetryManager) (task : QTask) (err : Option String)
    (draw : Int) (coin : Bool) : Bool × Int :=
  if task.attempts ≥ task.maxRetries then (false, 0)
  else if !(isRetryableError err) then (false, 0)
  else (true, calculateBackoff r task.attempts draw coin)

/-! ## Booking data model (internal/entity, internal/database/postgres) -/

/-- The `entity.BookingStatus`. -/
inductive BookingStatus
  | pending
  | confirmed
  | cancelled
  | expired
  deriving Repr, DecidableEq

/-- The `entity.Booking` (the fields the booking flows read or write). -/
structure Booking where
  id : Nat
  eventId : Nat
  userId : Nat
  seats : Int
  status : BookingStatus
  expiresAt : Int
  reservationTimeout : Int
  updatedAt : Int
  deriving Repr, DecidableEq

/-- The `entity.Event` (the fields the booking flows read). -/
structure Event where
  id : Nat
  date : Int
  totalSeats : Int
  deriving Repr, DecidableEq

/-- Errors surfaced by the repository and service layers, one constructor per
distinct failure message in the source. -/
inductive BErr
  | bookingNotFound          -- entity.ErrBookingNotFound / "бронирование не найдено"
  | eventNotFound            -- event row absent
  | userNotFound             -- user row absent
  | eventInPast              -- "невозможно забронировать места на прошедшее мероприятие"
  | duplicateActive          -- user already has a pending/confirmed booking
  | insufficientSeats        -- "недостаточно доступных мест" (Conflict I3)
  | notPending               -- "бронирование не в статусе ожидания" (Conflict)
  | bookingExpired           -- "бронирование истекло"
  | alreadyCancelled         -- "бронирование уже отменено"
  | nonPositiveSeats         -- "количество мест должно быть положительным"
  | invalidStatus            -- "неверный статус бронирования"
  deriving Repr, DecidableEq

/-- The relational store: events, user ids, bookings, and the next value of
the `bookings.id` serial column. -/
structure DB where
  events : List Event
  users : List Nat
  bookings : List Booking
  nextId : Nat
  deriving Repr, DecidableEq

/-- Contribution of one booking row to
`SELECT COALESCE(SUM(seats),0) ... WHERE event_id = e AND status = 'confirmed'`. -/
def confContrib (e : Nat) (b : Booking) : Int :=
  if b.eventId = e ∧ b.status = BookingStatus.confirmed then b.seats else 0

/-- Sum of seats over confirmed bookings of event `e`. -/
def confirmedSeats (l : List Booking) (e : Nat) : Int :=
  (l.map (confContrib e)).sum

/-- The `SELECT ... FROM events WHERE id = $1`. -/
def findEvent (db : DB) (e : Nat) : Option Event :=
  db.events.find? (fun ev => ev.id = e)

/-- The `SELECT ... FROM bookings WHERE id = $1`. -/
def findBooking (db : DB) (i : Nat) : Option Booking :=
  db.bookings.find? (fun b => b.id = i)

/-- The row update performed by `bookingRepository.UpdateStatus`:
`UPDATE bookings SET status = $1, updated_at = $2 WHERE id = $3`. -/
def setStatusRow (i : Nat) (st : BookingStatus) (now : Int) (b : Booking) : Booking :=
  if b.id = i then { b with status := st, updatedAt := now } else b

/-- The `bookingRepository.UpdateStatus(id, status)`.  The transaction reads the
current row, seat-checks only the pending→confirmed transition, and then
updates the status unconditionally. -/
def repoUpdateStatus (db : DB) (i : Nat) (st : BookingStatus) (now : Int) :
    DB × Except BErr Unit :=
  match findBooking db i with
  | none => (db, Except.error BErr.bookingNotFound)
  | some cur =>
      if cur.status = BookingStatus.pending ∧ st = BookingStatus.confirmed then
        match findEvent db cur.eventId with
        | none => (db, Except.error BErr.eventNotFound)
        | some ev =>
            if confirmedSeats db.bookings cur.eventId + cur.seats > ev.totalSeats then
              (db, Except.error BErr.insufficientSeats)
            else
              ({ db with bookings := db.bookings.map (setStatusRow i st now) },
               Except.ok ())
      else
        ({ db with bookings := db.bookings.map (setStatusRow i st now) },
         Except.ok ())

/-- The row inserted by `bookingRepository.Create`: a fresh-id pending
booking with `expires_at = now + timeout`. -/
def mkPendingBooking (id e u : Nat) (s timeout now : Int) : Booking :=
  { id := id, eventId := e, userId := u, seats := s,
    status := BookingStatus.pending, expiresAt := now + timeout,
    reservationTimeout := timeout, updatedAt := now }

/-- The `bookingRepository.Create`.  Inside one transaction: read the confirmed
seat sum, read the event's total seats (failing when the event is absent),
reject a duplicate active booking, reject when `confirmed + seats > total`,
then insert the row with `expires_at = now + timeout` and a fresh id. -/
def repoCreate (db : DB) (eventId userId : Nat) (seats : Int)
    (timeout : Int) (now : Int) : DB × Except BErr Booking :=
  match findEvent db eventId with
  | none => (db, Except.error BErr.eventNotFound)
  | some ev =>
      if db.bookings.any (fun b =>
          b.eventId = eventId ∧ b.userId = userId ∧
            (b.status = BookingStatus.pending ∨
              b.status = BookingStatus.confirmed)) then
        (db, Except.error BErr.duplicateActive)
      else if confirmedSeats db.bookings eventId + seats > ev.totalSeats then
        (db, Except.error BErr.insufficientSeats)
      else
        ({ db with
           bookings := db.bookings ++
             [mkPendingBooking db.nextId eventId userId seats timeout now],
           nextId := db.nextId + 1 },
         Except.ok (mkPendingBooking db.nextId eventId userId seats timeout now))

/-- The `bookingRepository.Update` (used by `UpdateBookingSeats`): replaces every
field of the row with id `nb.id` and stamps `updated_at`. -/
def repoUpdate (db : DB) (nb : Booking) (now : Int) : DB × Except BErr Unit :=
  match findBooking db nb.id with
  | none => (db, Except.error BErr.bookingNotFound)
  | some _ =>
      ({ db with bookings := db.bookings.map (fun b =>
          if b.id = nb.id then { nb with updatedAt := now } else b) },
       Except.ok ())

/-! ## Booking service (internal/service/bookingService.go)

Each operation returns the store state it leaves behind together with its
result.  Queue publications and Telegram notifications do not touch the
relational store and are outside this model. -/

/-- The `EventWithAvailability`: `available_seats = total_seats - booked_seats`
with `booked_seats` the confirmed-seat sum (eventPostgres `GetByID`). -/
def availableSeats (db : DB) (ev : Event) : Int :=
  ev.totalSeats - confirmedSeats db.bookings ev.id

/-- The `bookingService.BookSeats` (event exists and is in the future, enough
availability, user exists, no active booking for (event, user), default
timeout 30, then `bookingRepo.Create`). -/
def bookSeats (db : DB) (eventId userId : Nat) (seats : Int)
    (reservationTimeout : Int) (now : Int) : DB × Except BErr Booking :=
  match findEvent db eventId with
  | none => (db, Except.error BErr.eventNotFound)
  | some ev =>
      if ev.date < now then (db, Except.error BErr.eventInPast)
      else if availableSeats db ev < seats then
        (db, Except.error BErr.insufficientSeats)
      else if !(db.users.contains userId) then
        (db, Except.error BErr.userNotFound)
      else
        match db.bookings.find? (fun b =>
            b.eventId = eventId ∧ b.userId = userId ∧
              (b.status = BookingStatus.pending ∨
                b.status = BookingStatus.confirmed)) with
        | some _ => (db, Except.error BErr.duplicateActive)
        | none =>
            repoCreate db eventId userId seats
              (if reservationTimeout = 0 then 30 else reservationTimeout) now

/-- The `bookingService.ConfirmBooking`.  The booking must exist and be pending;
a passed deadline flips it to expired and fails; availability is re-checked
both by the service and inside the repository transaction. -/
def confirmBooking (db : DB) (i : Nat) (now : Int) : DB × Except BErr Unit :=
  match findBooking db i with
  | none => (db, Except.error BErr.bookingNotFound)
  | some b =>
      if b.status ≠ BookingStatus.pending then
        (db, Except.error BErr.notPending)
      else if now > b.expiresAt then
        match repoUpdateStatus db i BookingStatus.expired now with
        | (db', Except.ok _) => (db', Except.error BErr.bookingExpired)
        | (db', Except.error e) => (db', Except.error e)
      else
        match findEvent db b.eventId with
        | none => (db, Except.error BErr.eventNotFound)
        | some ev =>
            if availableSeats db ev < b.seats then
              (db, Except.error BErr.insufficientSeats)
            else
              repoUpdateStatus db i BookingStatus.confirmed now

/-- The `bookingService.CancelBooking` (idempotence guard: already cancelled or
expired fails; otherwise unconditional `UpdateStatus(cancelled)`). -/
def cancelBooking (db : DB) (i : Nat) (now : Int) : DB × Except BErr Unit :=
  match findBooking db i with
  | none => (db, Except.error BErr.bookingNotFound)
  | some b =>
      if b.status = BookingStatus.cancelled ∨ b.status = BookingStatus.expired then
        (db, Except.error BErr.alreadyCancelled)
      else
        repoUpdateStatus db i BookingStatus.cancelled now

/-- The `bookingService.ExpireBooking`: a bare pass-through to
`bookingRepo.UpdateStatus(id, expired)` with no status guard. -/
def expireBooking (db : DB) (i : Nat) (now : Int) : DB × Except BErr Unit :=
  repoUpdateStatus db i BookingStatus.expired now

/-- The `bookingService.UpdateBookingSeats`.  Seats must be positive, the booking
pending; the availability test is the source's
`AvailableSeats + (seats - booking.Seats) < 0`. -/
def updateBookingSeats (db : DB) (i : Nat) (seats : Int) (now : Int) :
    DB × Except BErr Unit :=
  if seats ≤ 0 then (db, Except.error BErr.nonPositiveSeats)
  else
    match findBooking db i with
    | none => (db, Except.error BErr.bookingNotFound)
    | some b =>
        if b.status ≠ BookingStatus.pending then
          (db, Except.error BErr.notPending)
        else
          match findEvent db b.eventId with
          | none => (db, Except.error BErr.eventNotFound)
          | some ev =>
              if availableSeats db ev + (seats - b.seats) < 0 then
                (db, Except.error BErr.insufficientSeats)
              else
                repoUpdate db { b with seats := seats } now

/-- The `bookingService.UpdateBookingStatus`: the switch admits all four statuses
(the default branch is unreachable over `BookingStatus`), then the repository
applies the transition. -/
def updateBookingStatus (db : DB) (i : Nat) (st : BookingStatus) (now : Int) :
    DB × Except BErr Unit :=
  repoUpdateStatus db i st now

/-! ## Operation traces over the public booking surface -/

/-- One public booking operation, with its clock reading. -/
inductive BookingOp
  | book (eventId userId : Nat) (seats timeout now : Int)
  | confirm (i : Nat) (now : Int)
  | cancel (i : Nat) (now : Int)
  | expire (i : Nat) (now : Int)
  | updSeats (i : Nat) (seats now : Int)
  | updStatus (i : Nat) (st : BookingStatus) (now : Int)
  deriving Repr, DecidableEq

/-- The store state an operation leaves behind (successful or not). -/
def runOp (db : DB) : BookingOp → DB
  | BookingOp.book e u s t now => (bookSeats db e u s t now).1
  | BookingOp.confirm i now => (confirmBooking db i now).1
  | BookingOp.cancel i now => (cancelBooking db i now).1
  | BookingOp.expire i now => (expireBooking db i now).1
  | BookingOp.updSeats i s now => (updateBookingSeats db i s now).1
  | BookingOp.updStatus i st now => (updateBookingStatus db i st now).1

/-- States reachable by operations satisfying a per-step guard `G`. -/
inductive Trace (G : DB → BookingOp → Prop) : DB → DB → Prop
  | refl (db : DB) : Trace G db db
  | step {db db' : DB} (op : BookingOp) (hg : G db op)
      (h : Trace G (runOp db op) db') : Trace G db db'

/-- Unrestricted sequences of public booking operations. -/
def Reaches : DB → DB → Prop := Trace (fun _ _ => True)

/-- Capacity invariant P2: for every event the confirmed-seat sum is at most
its total seats. -/
def CapacityInv (db : DB) : Prop :=
  ∀ e ∈ db.events, confirmedSeats db.bookings e.id ≤ e.totalSeats

instance (db : DB) : Decidable (CapacityInv db) := by
  unfold CapacityInv; infer_instance

/-! ## Redis queue (pkg/queue/redisQueue.go)

The head of a `List` is the Redis left end: `LPush` is `cons`, `BRPop` from
the right takes `getLast?`.  A serialized payload is a `Wire`: `good t` is a
payload that deserializes to task `t`, `bad raw` is malformed bytes. -/

/-- A serialized queue payload. -/
inductive Wire
  | good (t : QTask)
  | bad (raw : String)
  deriving Repr, DecidableEq

/-- The queue-relevant Redis state: the ready list, the delayed sorted set
(score/payload pairs), the in-flight (processing) list, and the DLQ contents
as recorded by `DLQHandler.HandleFailedTask` (failed task plus error text). -/
structure QState where
  ready : List Wire
  delayed : List (Int × Wire)
  processing : List Wire
  dlq : List (QTask × String)
  deriving Repr, DecidableEq

/-- Errors returned by `Publish`: an invalid task is a permanent error, a
store failure would be transient (never produced by this pure model). -/
inductive PubErr
  | invalidTask
  | transient
  deriving Repr, DecidableEq

/-- The `RedisQueue.validateTask`: assigns a generated id to an empty id *before*
rejecting an empty type, then fills the remaining defaults.  Returns the
(possibly mutated) task as the caller's `*Task` now reads. -/
def validateTask (cfgMaxRetries : Int) (genId : String) (now : Int)
    (t : QTask) : QTask × Except PubErr Unit :=
  let t := if t.id = "" then { t with id := genId } else t
  if t.type = "" then (t, Except.error PubErr.invalidTask)
  else
    let t := if t.data = none then { t with data := some [] } else t
    let t := if t.maxRetries = 0 then { t with maxRetries := cfgMaxRetries } else t
    let t := if t.createdAt = 0 then { t with createdAt := now } else t
    let t := if t.executeAt = 0 then { t with executeAt := now } else t
    (t, Except.ok ())

/-- The `RedisQueue.Publish`: validate, then route to the delayed sorted set
(score = `execute_at`) when `execute_at` is set and in the future, otherwise
left-push onto the ready list.  The first component is the caller's task
after the call (the Go method mutates it through the pointer). -/
def Publish (cfgMaxRetries : Int) (genId : String) (now : Int)
    (q : QState) (t : QTask) : QTask × QState × Except PubErr Unit :=
  match validateTask cfgMaxRetries genId now t with
  | (t', Except.error e) => (t', q, Except.error e)
  | (t', Except.ok _) =>
      if t'.executeAt ≠ 0 ∧ t'.executeAt > now then
        (t', { q with delayed := (t'.executeAt, Wire.good t') :: q.delayed },
         Except.ok ())
      else
        (t', { q with ready := Wire.good t' :: q.ready }, Except.ok ())

/-- The `RedisQueue.executeTaskWithRetry`, driven by a handler modelled as a
function from the task it receives to `none` (success) or `some msg`
(failure), and a jitter stream indexed by loop iteration.  The fuel argument
bounds the loop; `execRetryFuel` below always suffices because `attempts`
grows by one per iteration and the loop stops once
`attempts ≥ maxRetries`.  Returns the task (with its final `attempts`), the
final outcome, and the list of `attempts` values the handler was invoked
with, in order. -/
def execLoop (r : RetryManager) (handler : QTask → Option String)
    (rng : Nat → Int × Bool) : Nat → Nat → QTask →
    QTask × Option String × List Int
  | 0, _, t => (t, some ("out of fuel"), [])
  | fuel + 1, iter, t =>
      let t' := { t with attempts := t.attempts + 1 }
      match handler t' with
      | none => (t', none, [t'.attempts])
      | some err =>
          let (retry, _delay) := ShouldRetry r t' (some err) (rng iter).1 (rng iter).2
          if retry then
            let (tf, res, invs) := execLoop r handler rng fuel (iter + 1) t'
            (tf, res, t'.attempts :: invs)
          else
            (t', some err, [t'.attempts])

/-- Fuel sufficient for `execLoop`: one more iteration than the distance from
`attempts` to `maxRetries`. -/
def execRetryFuel (t : QTask) : Nat :=
  (t.maxRetries - t.attempts).toNat + 1

/-- The `RedisQueue.executeTaskWithRetry`. -/
def executeTaskWithRetry (r : RetryManager) (t : QTask)
    (handler : QTask → Option String) (rng : Nat → Int × Bool) :
    QTask × Option String × List Int :=
  execLoop r handler rng (execRetryFuel t) 0 t

/-- The `RedisQueue.moveToDLQ` for a payload that failed to deserialize: a
synthetic `corrupted` task wrapping the raw bytes is handed to the DLQ
handler. -/
def corruptedTask (raw : String) (now : Int) : QTask :=
  { id := "corrupted_" ++ toString now, type := "corrupted",
    data := some [("raw_data", raw)], executeAt := 0, createdAt := now,
    attempts := 0, maxRetries := 0 }

/-- Remove the first occurrence of `w` (`LREM key 1 w`). -/
def lrem1 (l : List Wire) (w : Wire) : List Wire :=
  match l with
  | [] => []
  | x :: xs => if x = w then xs else x :: lrem1 xs w

/-- The `RedisQueue.processBatch`: `BRPopLPush` from the right of `ready` onto
the left of `processing`; deserialize; malformed payloads go to the DLQ via
`moveToDLQ` and the function returns *without* the `LRem` (the source's
early `return nil`); otherwise run `executeTaskWithRetry`, record a terminal
failure in the DLQ, and remove the payload from `processing`. -/
def processBatch (r : RetryManager) (q : QState)
    (handler : QTask → Option String) (rng : Nat → Int × Bool)
    (now : Int) : QState :=
  match q.ready.getLast? with
  | none => q
  | some w =>
      let q := { q with ready := q.ready.dropLast, processing := w :: q.processing }
      match w with
      | Wire.bad raw =>
          { q with dlq := q.dlq ++ [(corruptedTask raw now, "invalid task format")] }
      | Wire.good t =>
          let (tf, res, _invs) := executeTaskWithRetry r t handler rng
          let q :=
            match res with
            | none => q
            | some err => { q with dlq := q.dlq ++ [(tf, err)] }
          { q with processing := lrem1 q.processing w }

/-! ## C2 — retry policy -/

/-- C2 (counterexample).  The claim bounds the returned delay by ±25% of the
capped exponential value.  With `base = 8`, `attempts = 1` the exponential
value is `8` and the jitter draw ranges over `[0, 8/2) = [0,4)`; the
admissible draw `3` with the subtracting coin yields delay `5`, and
`5·4 < 8·3`, i.e. `5 < 0.75 · 8`: the delay falls below the claimed lower
bound, because the source draws its jitter from `[0, backoff/2)` (up to
±50%), not ±25%. -/
theorem C2_retry_counterexample :
    (0 : Int) ≤ 3 ∧ (3 : Int) < 8 / 2 ∧
    ShouldRetry (NewRetryManager 3 8)
      { id := "t", type := "expire_booking", data := none, executeAt := 0,
        createdAt := 0, attempts := 1, maxRetries := 3 }
      (some ("connection refused")) 3 false = (true, 5) ∧
    (5 : Int) * 4 < 8 * 3 := by
  refine ⟨by norm_num, by norm_num, ?_, by norm_num⟩
  decide

/-- The source's final cap `if backoff > maxDelay then maxDelay else backoff`
is a minimum. -/
theorem ite_gt_eq_min (b m : Int) : (if b > m then m else b) = min b m := by
  rcases le_or_lt b m with h | h
  · rw [if_neg (not_lt.mpr h), min_eq_left h]
  · rw [if_pos h, min_eq_right (le_of_lt h)]

/-- C2 (amended).  `ShouldRetry` returns `(false, 0)` when
`attempts ≥ max_retries` or when the lowered error message contains one of
the four non-retryable substrings; otherwise it returns `(true, delay)`
where `delay` is `base · 2^(attempts−1)` perturbed by a uniform jitter drawn
from `[0, backoff/2)` — strictly less than ±50%, added or subtracted by a
fair coin — and **then** capped at `16 · base`.  Stated for the
non-overflowing range of the Go `int64` arithmetic. -/
theorem C2_retry_amended (r : RetryManager) (t : QTask) (err : Option String)
    (draw : Int) (coin : Bool) :
    (t.attempts ≥ t.maxRetries → ShouldRetry r t err draw coin = (false, 0)) ∧
    (isRetryableError err = false → ShouldRetry r t err draw coin = (false, 0)) ∧
    (t.attempts < t.maxRetries → isRetryableError err = true →
      1 ≤ t.attempts → 0 ≤ draw →
      2 * draw < r.baseDelay * 2 ^ (t.attempts - 1).toNat →
      ShouldRetry r t err draw coin =
        (true,
          min (if coin then r.baseDelay * 2 ^ (t.attempts - 1).toNat + draw
               else r.baseDelay * 2 ^ (t.attempts - 1).toNat - draw)
            r.maxDelay) ∧
      r.baseDelay * 2 ^ (t.attempts - 1).toNat <
        2 * (if coin then r.baseDelay * 2 ^ (t.attempts - 1).toNat + draw
             else r.baseDelay * 2 ^ (t.attempts - 1).toNat - draw) ∧
      2 * (if coin then r.baseDelay * 2 ^ (t.attempts - 1).toNat + draw
           else r.baseDelay * 2 ^ (t.attempts - 1).toNat - draw) <
        3 * (r.baseDelay * 2 ^ (t.attempts - 1).toNat)) := by
  refine ⟨?_, ?_, ?_⟩
  · intro h
    simp [ShouldRetry, h]
  · intro h
    by_cases hml : t.attempts ≥ t.maxRetries
    · simp [ShouldRetry, hml]
    · simp [ShouldRetry, hml, h]
  · intro hml hretry ha hd0 hd1
    have hnot : ¬ t.attempts ≥ t.maxRetries := not_le.mpr hml
    have hpos : ¬ t.attempts ≤ 0 := by omega
    refine ⟨?_, ?_, ?_⟩
    · have h1 : ShouldRetry r t err draw coin =
          (true, calculateBackoff r t.attempts draw coin) := by
        simp [ShouldRetry, hnot, hretry]
      rw [h1]
      have h2 : calculateBackoff r t.attempts draw coin =
          min (if coin then r.baseDelay * 2 ^ (t.attempts - 1).toNat + draw
               else r.baseDelay * 2 ^ (t.attempts - 1).toNat - draw) r.maxDelay := by
        simp only [calculateBackoff, if_neg hpos]
        exact ite_gt_eq_min _ _
      rw [h2]
    · cases coin <;> simp only [if_true, if_false, Bool.false_eq_true] <;> omega
    · cases coin <;> simp only [if_true, if_false, Bool.false_eq_true] <;> omega

/-- C2 (witness for the amended theorem): base 8, attempt 1, a retryable
error, draw 3 with the adding coin gives `(true, min 11 128) = (true, 11)`. -/
theorem C2_retry_amended_witness :
    ShouldRetry (NewRetryManager 3 8)
      { id := "t", type := "expire_booking", data := none, executeAt := 0,
        createdAt := 0, attempts := 1, maxRetries := 3 }
      (some ("connection refused")) 3 true = (true, min 11 128) := by
  have h := (C2_retry_amended (NewRetryManager 3 8)
    { id := "t", type := "expire_booking", data := none, executeAt := 0,
      createdAt := 0, attempts := 1, maxRetries := 3 }
    (some ("connection refused")) 3 true).2.2
    (by norm_num) (by decide) (by norm_num) (by norm_num)
    (by norm_num [NewRetryManager])
  simpa using h.1

/-! ## C8 — Publish routing and defaults, C10 — mutation on failure -/

/-- The task as `validateTask` leaves it when the type is non-empty: each
default is filled from its own original field. -/
def validatedTask (cfgMaxRetries : Int) (genId : String) (now : Int)
    (t : QTask) : QTask :=
  { id := if t.id = "" then genId else t.id,
    type := t.type,
    data := if t.data = none then some [] else t.data,
    executeAt := if t.executeAt = 0 then now else t.executeAt,
    createdAt := if t.createdAt = 0 then now else t.createdAt,
    attempts := t.attempts,
    maxRetries := if t.maxRetries = 0 then cfgMaxRetries else t.maxRetries }

theorem validateTask_ok (cfgMaxRetries : Int) (genId : String) (now : Int)
    (t : QTask) (h : t.type ≠ "") :
    validateTask cfgMaxRetries genId now t =
      (validatedTask cfgMaxRetries genId now t, Except.ok ()) := by
  obtain ⟨i, ty, d, e, c, a, m⟩ := t
  simp only [validateTask, validatedTask] at *
  by_cases hi : i = "" <;> simp only [hi, if_true, if_false, if_pos, if_neg,
    not_false_iff] <;>
    simp [h] <;>
    by_cases hd : d = none <;>
    by_cases hm : m = 0 <;>
    by_cases hc : c = 0 <;>
    by_cases he : e = 0 <;>
    simp [hd, hm, hc, he]

/-- C8.  `Publish`: a task with empty type is rejected with the permanent
`invalidTask` error and nothing is enqueued; otherwise the defaults are
filled (`max_retries` from the config when zero, a generated id when empty,
`created_at = now` when zero) and the serialized task is routed: onto the
delayed sorted set with score `execute_at` when `execute_at` is set and in
the future, otherwise left-pushed onto the ready list — so a future
`execute_at` never reaches the ready list. -/
theorem C8_publish_routing (cfgMaxRetries : Int) (genId : String) (now : Int)
    (q : QState) (t : QTask) :
    (t.type = "" →
      Publish cfgMaxRetries genId now q t =
        ((if t.id = "" then { t with id := genId } else t), q,
          Except.error PubErr.invalidTask)) ∧
    (t.type ≠ "" →
      (validatedTask cfgMaxRetries genId now t).id =
          (if t.id = "" then genId else t.id) ∧
      (validatedTask cfgMaxRetries genId now t).maxRetries =
          (if t.maxRetries = 0 then cfgMaxRetries else t.maxRetries) ∧
      (validatedTask cfgMaxRetries genId now t).createdAt =
          (if t.createdAt = 0 then now else t.createdAt) ∧
      ((validatedTask cfgMaxRetries genId now t).executeAt ≠ 0 ∧
          (validatedTask cfgMaxRetries genId now t).executeAt > now →
        Publish cfgMaxRetries genId now q t =
          (validatedTask cfgMaxRetries genId now t,
           { q with delayed :=
              ((validatedTask cfgMaxRetries genId now t).executeAt,
                Wire.good (validatedTask cfgMaxRetries genId now t)) :: q.delayed },
           Except.ok ())) ∧
      ((validatedTask cfgMaxRetries genId now t).executeAt = 0 ∨
          (validatedTask cfgMaxRetries genId now t).executeAt ≤ now →
        Publish cfgMaxRetries genId now q t =
          (validatedTask cfgMaxRetries genId now t,
           { q with ready := Wire.good (validatedTask cfgMaxRetries genId now t) :: q.ready },
           Except.ok ()))) := by
  constructor
  · intro h
    by_cases hi : t.id = "" <;>
      simp [Publish, validateTask, hi, h]
  · intro h
    refine ⟨rfl, rfl, rfl, ?_, ?_⟩
    · intro hfut
      simp only [Publish, validateTask_ok cfgMaxRetries genId now t h]
      rw [if_pos hfut]
    · intro hpast
      simp only [Publish, validateTask_ok cfgMaxRetries genId now t h]
      rw [if_neg ?_]
      rintro ⟨h1, h2⟩
      rcases hpast with h3 | h3
      · exact h1 h3
      · exact absurd h2 (not_lt.mpr h3)

/-- An unvalidated notification task used as a concrete `Publish` input. -/
def rawNotifyTask : QTask :=
  { id := "", type := "send_notification", data := none, executeAt := 0,
    createdAt := 0, attempts := 0, maxRetries := 0 }

/-- The `rawNotifyTask` after validation at `now = 50` with generated id
`task_77` and configured `max_retries = 3`. -/
def filledNotifyTask : QTask :=
  { id := "task_77", type := "send_notification", data := some [],
    executeAt := 50, createdAt := 50, attempts := 0, maxRetries := 3 }

/-- The empty queue state. -/
def emptyQ : QState := { ready := [], delayed := [], processing := [], dlq := [] }

/-- C8 (witness): a task with zero `execute_at`, empty id and zero
`max_retries` published at `now = 50` lands on the ready list with the
defaults filled in. -/
theorem C8_publish_routing_witness :
    Publish 3 ("task_77") 50 emptyQ rawNotifyTask =
      (filledNotifyTask,
       { emptyQ with ready := [Wire.good filledNotifyTask] },
       Except.ok ()) := by
  have h := ((C8_publish_routing 3 ("task_77") 50 emptyQ rawNotifyTask).2
    (by decide)).2.2.2.2
  simpa [validatedTask, rawNotifyTask, filledNotifyTask, emptyQ] using
    h (by norm_num [validatedTask, rawNotifyTask])

/-- C10.  `Publish` is not atomic on validation failure with respect to its
input: called with a task whose id and type are both empty, it returns the
permanent validation error and enqueues nothing, yet the caller's task has
already been mutated — the generated id was assigned before the type check
rejected the task. -/
theorem C10_publish_mutates_on_error :
    Publish 3 ("task_12345") 99
        { ready := [], delayed := [], processing := [], dlq := [] }
        { id := "", type := "", data := none, executeAt := 0, createdAt := 0,
          attempts := 0, maxRetries := 0 } =
      ({ id := "task_12345", type := "", data := none, executeAt := 0,
         createdAt := 0, attempts := 0, maxRetries := 0 },
       { ready := [], delayed := [], processing := [], dlq := [] },
       Except.error PubErr.invalidTask) ∧
    ({ id := "task_12345", type := "", data := none, executeAt := 0,
       createdAt := 0, attempts := 0, maxRetries := 0 } : QTask) ≠
      { id := "", type := "", data := none, executeAt := 0, createdAt := 0,
        attempts := 0, maxRetries := 0 } := by
  constructor
  · rfl
  · decide

/-! ## C3 — consumer terminal bookkeeping on malformed tasks -/

/-- C3 (code bug, evaluated at the failing input).  A malformed payload
popped from `ready` into the processing (in-flight) list is shipped to the
DLQ, but the early `return nil` skips the `LRem`: the payload stays in
`processing` forever, violating "removal from `in_flight` must occur on
every terminal outcome".  A well-formed payload whose handler succeeds *is*
removed. -/
theorem C3_malformed_leaks_in_flight :
    processBatch (NewRetryManager 3 8)
        { ready := [Wire.bad ("not json")], delayed := [], processing := [], dlq := [] }
        (fun _ => none) (fun _ => (0, true)) 7 =
      { ready := [], delayed := [],
        processing := [Wire.bad ("not json")],
        dlq := [(corruptedTask ("not json") 7, "invalid task format")] } ∧
    processBatch (NewRetryManager 3 8)
        { ready := [Wire.good filledNotifyTask], delayed := [], processing := [],
          dlq := [] }
        (fun _ => none) (fun _ => (0, true)) 7 =
      { ready := [], delayed := [], processing := [], dlq := [] } := by
  constructor
  · rfl
  · rfl

/-! ## C6 — UpdateBookingSeats availability check -/

/-- An event with 10 seats, 8 of them confirmed by user 2, and a pending
booking of 1 seat by user 1: `available_seats = 2`. -/
def dbSeats : DB :=
  { events := [{ id := 1, date := 1000000, totalSeats := 10 }],
    users := [1, 2],
    bookings :=
      [{ id := 1, eventId := 1, userId := 2, seats := 8,
         status := BookingStatus.confirmed, expiresAt := 40,
         reservationTimeout := 30, updatedAt := 0 },
       { id := 2, eventId := 1, userId := 1, seats := 1,
         status := BookingStatus.pending, expiresAt := 90,
         reservationTimeout := 30, updatedAt := 0 }],
    nextId := 3 }

/-- C6 (code bug, evaluated at the failing input).  With
`available_seats = 2`, raising the pending booking from 1 seat to 10 is a
seat increase of 9 > 2, which the claim (and the spec) says is rejected with
an insufficient-seats error.  The source tests
`AvailableSeats + (seats − booking.Seats) < 0` — the inequality runs the
wrong way, so the increase is accepted and the booking is updated to
10 seats. -/
theorem C6_seat_increase_accepted :
    availableSeats dbSeats { id := 1, date := 1000000, totalSeats := 10 } = 2 ∧
    (updateBookingSeats dbSeats 2 10 50).2 = Except.ok () ∧
    findBooking (updateBookingSeats dbSeats 2 10 50).1 2 =
      some { id := 2, eventId := 1, userId := 1, seats := 10,
             status := BookingStatus.pending, expiresAt := 90,
             reservationTimeout := 30, updatedAt := 50 } := by
  refine ⟨rfl, rfl, rfl⟩

/-! ## C4 — ExpireBooking -/

theorem setStatusRow_id (i : Nat) (st : BookingStatus) (now : Int) (b : Booking) :
    (setStatusRow i st now b).id = b.id := by
  unfold setStatusRow
  split <;> rfl

theorem setStatusRow_idem (i : Nat) (st : BookingStatus) (now : Int) (b : Booking) :
    setStatusRow i st now (setStatusRow i st now b) = setStatusRow i st now b := by
  by_cases h : b.id = i <;> simp [setStatusRow, h]

theorem map_setStatusRow_idem (i : Nat) (st : BookingStatus) (now : Int)
    (l : List Booking) :
    (l.map (setStatusRow i st now)).map (setStatusRow i st now) =
      l.map (setStatusRow i st now) := by
  induction l with
  | nil => rfl
  | cons h t ih => simp [setStatusRow_idem, ih]

theorem find?_map_setStatusRow (l : List Booking) (i j : Nat)
    (st : BookingStatus) (now : Int) :
    (l.map (setStatusRow i st now)).find? (fun b => b.id = j) =
      (l.find? (fun b => b.id = j)).map (setStatusRow i st now) := by
  induction l with
  | nil => rfl
  | cons h t ih =>
    rw [List.map_cons, List.find?_cons, List.find?_cons]
    by_cases hid : h.id = j
    · simp [setStatusRow_id, hid]
    · simp [setStatusRow_id, hid, ih]

/-- A store holding one confirmed booking of 2 seats. -/
def dbConf : DB :=
  { events := [{ id := 1, date := 1000000, totalSeats := 5 }],
    users := [1],
    bookings :=
      [{ id := 1, eventId := 1, userId := 1, seats := 2,
         status := BookingStatus.confirmed, expiresAt := 40,
         reservationTimeout := 30, updatedAt := 0 }],
    nextId := 2 }

/-- C4 (counterexample).  The claim says `ExpireBooking` is a no-op on any
booking not pending.  On the confirmed booking of `dbConf`, it succeeds and
flips the status to expired: `bookingRepo.UpdateStatus` applies every
transition other than pending→confirmed unconditionally, and
`bookingService.ExpireBooking` adds no status guard (only the queue's
`handleExpireBooking` checks the status first). -/
theorem C4_expire_counterexample :
    findBooking dbConf 1 =
      some { id := 1, eventId := 1, userId := 1, seats := 2,
             status := BookingStatus.confirmed, expiresAt := 40,
             reservationTimeout := 30, updatedAt := 0 } ∧
    (expireBooking dbConf 1 60).2 = Except.ok () ∧
    findBooking (expireBooking dbConf 1 60).1 1 =
      some { id := 1, eventId := 1, userId := 1, seats := 2,
             status := BookingStatus.expired, expiresAt := 40,
             reservationTimeout := 30, updatedAt := 60 } :=
  ⟨rfl, rfl, rfl⟩

/-- C4 (amended).  `ExpireBooking(id)` on an existing booking succeeds and
unconditionally sets its status to `expired`, whatever the current status
(pending, confirmed, cancelled or expired); it fails only when the booking
does not exist.  Applying it twice (with the same clock reading) is
equivalent to applying it once. -/
theorem C4_expire_amended (db : DB) (i : Nat) (now : Int) (b : Booking)
    (h : findBooking db i = some b) :
    (expireBooking db i now).2 = Except.ok () ∧
    (∀ b' ∈ (expireBooking db i now).1.bookings, b'.id = i →
      b'.status = BookingStatus.expired) ∧
    expireBooking (expireBooking db i now).1 i now =
      ((expireBooking db i now).1, Except.ok ()) := by
  have hres : expireBooking db i now =
      ({ db with bookings :=
          db.bookings.map (setStatusRow i BookingStatus.expired now) },
       Except.ok ()) := by
    unfold expireBooking repoUpdateStatus
    rw [show findBooking db i = some b from h]
    simp
  refine ⟨by rw [hres], ?_, ?_⟩
  · intro b' hb' hid
    rw [hres] at hb'
    simp only [List.mem_map] at hb'
    obtain ⟨x, _, rfl⟩ := hb'
    by_cases hx : x.id = i
    · simp [setStatusRow, hx]
    · exact absurd (by rw [setStatusRow_id] at hid; exact hid) hx
  · rw [hres]
    have hfind : findBooking
        { db with bookings :=
            db.bookings.map (setStatusRow i BookingStatus.expired now) } i =
        some (setStatusRow i BookingStatus.expired now b) := by
      unfold findBooking
      rw [find?_map_setStatusRow]
      rw [show db.bookings.find? (fun b => b.id = i) = some b from h]
      rfl
    simp [expireBooking, repoUpdateStatus, hfind, map_setStatusRow_idem]
    exact fun a _ => setStatusRow_idem i BookingStatus.expired now a

/-- C4 (witness): the amended theorem applied to `dbConf`, booking 1, at
time 60. -/
theorem C4_expire_amended_witness :
    (expireBooking dbConf 1 60).2 = Except.ok () ∧
    expireBooking (expireBooking dbConf 1 60).1 1 60 =
      ((expireBooking dbConf 1 60).1, Except.ok ()) := by
  have h := C4_expire_amended dbConf 1 60
    { id := 1, eventId := 1, userId := 1, seats := 2,
      status := BookingStatus.confirmed, expiresAt := 40,
      reservationTimeout := 30, updatedAt := 0 } rfl
  exact ⟨h.1, h.2.2⟩

/-! ## C7 — ConfirmBooking -/

theorem mem_map_setStatusRow_status (l : List Booking) (i : Nat)
    (st : BookingStatus) (now : Int) :
    ∀ b' ∈ l.map (setStatusRow i st now), b'.id = i → b'.status = st := by
  intro b' hb' hid
  simp only [List.mem_map] at hb'
  obtain ⟨x, _, rfl⟩ := hb'
  by_cases hx : x.id = i
  · simp [setStatusRow, hx]
  · rw [setStatusRow_id] at hid
    exact absurd hid hx

theorem repoUpdateStatus_nonconfirm (db : DB) (i : Nat) (st : BookingStatus)
    (now : Int) (b : Booking) (h : findBooking db i = some b)
    (hst : st ≠ BookingStatus.confirmed) :
    repoUpdateStatus db i st now =
      ({ db with bookings := db.bookings.map (setStatusRow i st now) },
       Except.ok ()) := by
  unfold repoUpdateStatus
  rw [h]
  simp [hst]

theorem repoUpdateStatus_confirm_ok (db : DB) (i : Nat) (now : Int)
    (b : Booking) (ev : Event) (h : findBooking db i = some b)
    (hp : b.status = BookingStatus.pending)
    (hev : findEvent db b.eventId = some ev)
    (hcap : confirmedSeats db.bookings b.eventId + b.seats ≤ ev.totalSeats) :
    repoUpdateStatus db i BookingStatus.confirmed now =
      ({ db with bookings :=
          db.bookings.map (setStatusRow i BookingStatus.confirmed now) },
       Except.ok ()) := by
  unfold repoUpdateStatus
  rw [h]
  simp [hp, hev, not_lt.mpr hcap]

/-- C7.  `ConfirmBooking`: on an already-confirmed booking it fails with the
conflict error and leaves the store unchanged; on a pending booking whose
deadline has passed it transitions the booking to expired and fails; on a
pending booking within the deadline it succeeds exactly when the re-checked
confirmed-seat sum plus this booking's seats fits within the event's total
seats, and fails with insufficient-seats (store unchanged) otherwise. -/
theorem C7_confirm_booking (db : DB) (i : Nat) (now : Int) (b : Booking)
    (h : findBooking db i = some b) :
    (b.status = BookingStatus.confirmed →
      confirmBooking db i now = (db, Except.error BErr.notPending)) ∧
    (b.status = BookingStatus.pending → now > b.expiresAt →
      (confirmBooking db i now).2 = Except.error BErr.bookingExpired ∧
      ∀ b' ∈ (confirmBooking db i now).1.bookings, b'.id = i →
        b'.status = BookingStatus.expired) ∧
    (∀ ev : Event, b.status = BookingStatus.pending → now ≤ b.expiresAt →
      findEvent db b.eventId = some ev →
      (confirmedSeats db.bookings b.eventId + b.seats ≤ ev.totalSeats →
        (confirmBooking db i now).2 = Except.ok () ∧
        ∀ b' ∈ (confirmBooking db i now).1.bookings, b'.id = i →
          b'.status = BookingStatus.confirmed) ∧
      (confirmedSeats db.bookings b.eventId + b.seats > ev.totalSeats →
        confirmBooking db i now = (db, Except.error BErr.insufficientSeats))) := by
  refine ⟨?_, ?_, ?_⟩
  · intro hc
    unfold confirmBooking
    rw [h]
    simp [hc]
  · intro hp htime
    have hres : confirmBooking db i now =
        ({ db with bookings :=
            db.bookings.map (setStatusRow i BookingStatus.expired now) },
         Except.error BErr.bookingExpired) := by
      unfold confirmBooking
      rw [h]
      simp [hp, htime,
        repoUpdateStatus_nonconfirm db i BookingStatus.expired now b h
          (by intro hcontra; cases hcontra)]
    rw [hres]
    exact ⟨rfl, mem_map_setStatusRow_status _ _ _ _⟩
  · intro ev hp htime hev
    constructor
    · intro hcap
      have havail : ¬ availableSeats db ev < b.seats := by
        unfold availableSeats
        have hide : ev.id = b.eventId := by
          have := List.find?_some hev
          simpa using this
        rw [hide]
        omega
      have hres : confirmBooking db i now =
          ({ db with bookings :=
              db.bookings.map (setStatusRow i BookingStatus.confirmed now) },
           Except.ok ()) := by
        unfold confirmBooking
        rw [h]
        simp [hp, not_lt.mpr htime, hev, havail,
          repoUpdateStatus_confirm_ok db i now b ev h hp hev hcap]
      rw [hres]
      exact ⟨rfl, mem_map_setStatusRow_status _ _ _ _⟩
    · intro hcap
      have havail : availableSeats db ev < b.seats := by
        unfold availableSeats
        have hide : ev.id = b.eventId := by
          have := List.find?_some hev
          simpa using this
        rw [hide]
        omega
      unfold confirmBooking
      rw [h]
      simp [hp, not_lt.mpr htime, hev, havail]

/-- C7 (witness): confirming the pending 1-seat booking of `dbSeats` at time
80 (before its deadline 90, with 8 of 10 seats confirmed) succeeds, and
confirming the already-confirmed booking 1 fails with the conflict error
leaving the store unchanged. -/
theorem C7_confirm_booking_witness :
    (confirmBooking dbSeats 2 80).2 = Except.ok () ∧
    confirmBooking dbSeats 1 80 = (dbSeats, Except.error BErr.notPending) := by
  constructor
  · have h := ((C7_confirm_booking dbSeats 2 80
      { id := 2, eventId := 1, userId := 1, seats := 1,
        status := BookingStatus.pending, expiresAt := 90,
        reservationTimeout := 30, updatedAt := 0 } rfl).2.2
      { id := 1, date := 1000000, totalSeats := 10 }
      rfl (by norm_num) rfl).1 (by decide)
    exact h.1
  · exact (C7_confirm_booking dbSeats 1 80
      { id := 1, eventId := 1, userId := 2, seats := 8,
        status := BookingStatus.confirmed, expiresAt := 40,
        reservationTimeout := 30, updatedAt := 0 } rfl).1 rfl

/-! ## C9 — retry cap and attempts monotonicity -/

theorem shouldRetry_true_lt (r : RetryManager) (t : QTask) (e : Option String)
    (d : Int) (c : Bool) (h : (ShouldRetry r t e d c).1 = true) :
    t.attempts < t.maxRetries := by
  by_contra hc
  have hge : t.attempts ≥ t.maxRetries := not_lt.mp hc
  simp [ShouldRetry, hge] at h

/-- Inside `executeTaskWithRetry`, the handler is invoked with `attempts`
values `a+1, a+2, …, a+k` for some `1 ≤ k` with `a + k ≤ max_retries`,
where `a` is the task's `attempts` on entry (assuming `a < max_retries`):
the queue increments the counter exactly once immediately before each call
and the loop stops before the counter can pass `max_retries`. -/
theorem execLoop_attempts (r : RetryManager) (handler : QTask → Option String)
    (rng : Nat → Int × Bool) :
    ∀ (fuel iter : Nat) (t : QTask),
      t.attempts < t.maxRetries →
      (t.maxRetries - t.attempts).toNat ≤ fuel →
      ∃ k : Nat, 1 ≤ k ∧ t.attempts + k ≤ t.maxRetries ∧
        (execLoop r handler rng fuel iter t).2.2 =
          (List.range k).map (fun n : Nat => t.attempts + (n : Int) + 1) := by
  intro fuel
  induction fuel with
  | zero =>
      intro iter t hlt hfuel
      omega
  | succ fuel ih =>
      intro iter t hlt hfuel
      cases hh : handler { t with attempts := t.attempts + 1 } with
      | none =>
          refine ⟨1, le_refl 1, by omega, ?_⟩
          simp [execLoop, hh, show List.range 1 = [0] from rfl]
      | some err =>
          by_cases hr : (ShouldRetry r { t with attempts := t.attempts + 1 }
              (some err) (rng iter).1 (rng iter).2).1 = true
          · have hlt' : t.attempts + 1 < t.maxRetries := by
              have := shouldRetry_true_lt r
                { t with attempts := t.attempts + 1 } (some err)
                (rng iter).1 (rng iter).2 hr
              simpa using this
            obtain ⟨k', hk1, hk2, heq⟩ := ih (iter + 1)
              { t with attempts := t.attempts + 1 } hlt' (by simp; omega)
            refine ⟨k' + 1, by omega, by simp at hk2; omega, ?_⟩
            have hstep : (execLoop r handler rng (fuel + 1) iter t).2.2 =
                (t.attempts + 1) ::
                  (execLoop r handler rng fuel (iter + 1)
                    { t with attempts := t.attempts + 1 }).2.2 := by
              simp [execLoop, hh, hr]
            rw [hstep, heq, List.range_succ_eq_map]
            simp only [List.map_cons, List.map_map]
            congr 1
            · norm_num
            · apply List.map_congr_left
              intro n _
              simp only [Function.comp_apply]
              push_cast
              ring
          · refine ⟨1, le_refl 1, by omega, ?_⟩
            simp [execLoop, hh, hr, show List.range 1 = [0] from rfl]

/-- C9.  For a task entering the consumer with `attempts = 0` and
`max_retries ≥ 1` (as `Publish` guarantees), `executeTaskWithRetry` invokes
the handler at most `max_retries` times, and the `attempts` values the
handler observes are exactly `1, 2, …, k`: strictly increasing, incremented
exactly once by the queue immediately before each invocation. -/
theorem C9_retry_cap (r : RetryManager) (t : QTask)
    (handler : QTask → Option String) (rng : Nat → Int × Bool)
    (h0 : t.attempts = 0) (h1 : 1 ≤ t.maxRetries) :
    ((executeTaskWithRetry r t handler rng).2.2.length : Int) ≤ t.maxRetries ∧
    (executeTaskWithRetry r t handler rng).2.2 =
      (List.range (executeTaskWithRetry r t handler rng).2.2.length).map
        (fun n : Nat => (n : Int) + 1) := by
  obtain ⟨k, hk1, hk2, heq⟩ := execLoop_attempts r handler rng
    (execRetryFuel t) 0 t (by omega) (by unfold execRetryFuel; omega)
  unfold executeTaskWithRetry
  rw [heq]
  have hlen : ((List.range k).map (fun n : Nat => t.attempts + (n : Int) + 1)).length = k := by
    simp
  rw [hlen]
  constructor
  · omega
  · apply List.map_congr_left
    intro n _
    omega

/-- C9 (witness): with `max_retries = 3`, `attempts = 0` and a handler that
always fails with a retryable error, the handler runs exactly three times
with `attempts` values `[1, 2, 3]`. -/
theorem C9_retry_cap_witness :
    ((executeTaskWithRetry (NewRetryManager 3 8)
        { id := "t", type := "expire_booking", data := none, executeAt := 0,
          createdAt := 0, attempts := 0, maxRetries := 3 }
        (fun _ => some ("connection refused"))
        (fun _ => (0, true))).2.2.length : Int) ≤ 3 ∧
    (executeTaskWithRetry (NewRetryManager 3 8)
        { id := "t", type := "expire_booking", data := none, executeAt := 0,
          createdAt := 0, attempts := 0, maxRetries := 3 }
        (fun _ => some ("connection refused"))
        (fun _ => (0, true))).2.2 = [1, 2, 3] := by
  have h := C9_retry_cap (NewRetryManager 3 8)
    { id := "t", type := "expire_booking", data := none, executeAt := 0,
      createdAt := 0, attempts := 0, maxRetries := 3 }
    (fun _ => some ("connection refused"))
    (fun _ => (0, true)) rfl (by norm_num)
  refine ⟨by simpa using h.1, ?_⟩
  rw [h.2]
  rfl

/-! ## Store well-formedness and seat-sum lemmas (shared by C1 and C5) -/

/-- Well-formed identifiers: booking ids are below the serial counter and
duplicate-free, event ids are duplicate-free. -/
def WFids (db : DB) : Prop :=
  (∀ b ∈ db.bookings, b.id < db.nextId) ∧
  (db.bookings.map Booking.id).Nodup ∧
  (db.events.map Event.id).Nodup

instance (db : DB) : Decidable (WFids db) := by
  unfold WFids; infer_instance

/-- Invariant I1: every stored booking has at least one seat. -/
def SeatsPos (db : DB) : Prop := ∀ b ∈ db.bookings, 1 ≤ b.seats

instance (db : DB) : Decidable (SeatsPos db) := by
  unfold SeatsPos; infer_instance

theorem setStatusRow_seats (i : Nat) (st : BookingStatus) (now : Int)
    (b : Booking) : (setStatusRow i st now b).seats = b.seats := by
  unfold setStatusRow
  split <;> rfl

theorem confContrib_nonneg (e : Nat) (b : Booking) (h : 1 ≤ b.seats) :
    0 ≤ confContrib e b := by
  unfold confContrib
  split <;> omega

theorem confirmedSeats_append (l l₂ : List Booking) (e : Nat) :
    confirmedSeats (l ++ l₂) e = confirmedSeats l e + confirmedSeats l₂ e := by
  simp [confirmedSeats]

theorem confirmedSeats_map_le (l : List Booking) (e : Nat) (f : Booking → Booking)
    (h : ∀ b ∈ l, confContrib e (f b) ≤ confContrib e b) :
    confirmedSeats (l.map f) e ≤ confirmedSeats l e := by
  induction l with
  | nil => simp [confirmedSeats]
  | cons hd t ih =>
      simp only [confirmedSeats, List.map_cons, List.sum_cons] at *
      have h1 := h hd (List.mem_cons_self hd t)
      have h2 := ih (fun b hb => h b (List.mem_cons_of_mem hd hb))
      omega

/-- When `f` only rewrites rows whose id is the key `i`, the key occurs at
most once (`Nodup` ids) and the row found is `x`, the confirmed-seat sum
changes exactly by `f`'s effect on `x`. -/
theorem confirmedSeats_map_keyed (l : List Booking) (e i : Nat) (x : Booking)
    (f : Booking → Booking) (hfix : ∀ b : Booking, b.id ≠ i → f b = b)
    (hx : l.find? (fun b => b.id = i) = some x)
    (hnodup : (l.map Booking.id).Nodup) :
    confirmedSeats (l.map f) e =
      confirmedSeats l e - confContrib e x + confContrib e (f x) := by
  induction l with
  | nil => cases hx
  | cons hd t ih =>
      have hnd := hnodup
      rw [List.map_cons, List.nodup_cons] at hnd
      by_cases hh : hd.id = i
      · rw [List.find?_cons_of_pos _ (by simpa using hh)] at hx
        injection hx with hx
        subst hx
        have hmapfix : t.map f = t := by
          apply List.map_congr_left ?_ |>.trans (List.map_id t)
          intro b hb
          apply hfix
          intro hbid
          exact hnd.1 (by rw [hh, ← hbid]; exact List.mem_map_of_mem Booking.id hb)
        simp only [confirmedSeats, List.map_cons, List.sum_cons] at *
        rw [show List.map (confContrib e) (List.map f t) =
              List.map (confContrib e) t by rw [hmapfix]]
        ring
      · rw [List.find?_cons_of_neg _ (by simpa using hh)] at hx
        have := ih hx hnd.2
        simp only [confirmedSeats, List.map_cons, List.sum_cons] at *
        rw [hfix hd hh, this]
        ring

theorem find?_event_self (l : List Event) (e : Event)
    (hnd : (l.map Event.id).Nodup) (he : e ∈ l) :
    l.find? (fun ev => ev.id = e.id) = some e := by
  induction l with
  | nil => cases he
  | cons hd t ih =>
      rw [List.map_cons, List.nodup_cons] at hnd
      rcases List.mem_cons.mp he with rfl | hmem
      · rw [List.find?_cons_of_pos _ (by simp)]
      · rw [List.find?_cons_of_neg _ ?_]
        · exact ih hnd.2 hmem
        · simp only [decide_eq_true_eq]
          intro hcontra
          exact hnd.1 (by rw [hcontra]; exact List.mem_map_of_mem Event.id hmem)

/-- With duplicate-free event ids, looking up a stored event's id returns
that event. -/
theorem findEvent_self (db : DB) (e : Event)
    (hnd : (db.events.map Event.id).Nodup) (he : e ∈ db.events) :
    findEvent db e.id = some e :=
  find?_event_self db.events e hnd he

/-! ## Result shapes of the booking operations -/

/-- The `repoUpdateStatus` either leaves the store unchanged (error paths) or
rewrites the found row's status, having passed the seat check when the
transition is pending→confirmed. -/
theorem repoUpdateStatus_shape (db : DB) (i : Nat) (st : BookingStatus)
    (now : Int) :
    (repoUpdateStatus db i st now).1 = db ∨
    ∃ b, findBooking db i = some b ∧
      (repoUpdateStatus db i st now).1 =
        { db with bookings := db.bookings.map (setStatusRow i st now) } ∧
      (b.status = BookingStatus.pending → st = BookingStatus.confirmed →
        ∃ ev, findEvent db b.eventId = some ev ∧
          confirmedSeats db.bookings b.eventId + b.seats ≤ ev.totalSeats) := by
  unfold repoUpdateStatus
  split
  · exact Or.inl rfl
  · rename_i cur hfind
    split
    · rename_i hpc
      split
      · exact Or.inl rfl
      · rename_i ev hev
        split
        · exact Or.inl rfl
        · rename_i hcap
          exact Or.inr ⟨cur, hfind, rfl, fun _ _ => ⟨ev, hev, by omega⟩⟩
    · rename_i hpc
      exact Or.inr ⟨cur, hfind, rfl, fun h1 h2 => absurd ⟨h1, h2⟩ hpc⟩

/-- The `repoCreate` either leaves the store unchanged or appends a fresh-id
pending booking with the requested seats and bumps the serial counter. -/
theorem repoCreate_shape (db : DB) (e u : Nat) (s timeout now : Int) :
    (repoCreate db e u s timeout now).1 = db ∨
    (repoCreate db e u s timeout now).1 =
      { db with
        bookings := db.bookings ++ [mkPendingBooking db.nextId e u s timeout now],
        nextId := db.nextId + 1 } := by
  unfold repoCreate
  split
  · exact Or.inl rfl
  · split
    · exact Or.inl rfl
    · split
      · exact Or.inl rfl
      · exact Or.inr rfl

/-- The `repoUpdate` either leaves the store unchanged or replaces every row
carrying the updated booking's id. -/
theorem repoUpdate_shape (db : DB) (nb : Booking) (now : Int) :
    (repoUpdate db nb now).1 = db ∨
    (repoUpdate db nb now).1 =
      { db with bookings := db.bookings.map (fun b =>
          if b.id = nb.id then { nb with updatedAt := now } else b) } := by
  unfold repoUpdate
  split
  · exact Or.inl rfl
  · exact Or.inr rfl

/-- The `bookSeats` either leaves the store unchanged or inserts a fresh-id
pending booking with the requested seats. -/
theorem bookSeats_shape (db : DB) (e u : Nat) (s timeout now : Int) :
    (bookSeats db e u s timeout now).1 = db ∨
    ∃ t' : Int, (bookSeats db e u s timeout now).1 =
      { db with
        bookings := db.bookings ++ [mkPendingBooking db.nextId e u s t' now],
        nextId := db.nextId + 1 } := by
  unfold bookSeats
  split
  · exact Or.inl rfl
  · split
    · exact Or.inl rfl
    · split
      · exact Or.inl rfl
      · split
        · exact Or.inl rfl
        · split
          · exact Or.inl rfl
          · rcases repoCreate_shape db e u s
              (if timeout = 0 then 30 else timeout) now with h | h
            · exact Or.inl h
            · exact Or.inr ⟨if timeout = 0 then 30 else timeout, h⟩

/-- The `confirmBooking` either leaves the store unchanged, or expires the found
pending booking (deadline passed), or confirms it after the seat re-check
succeeded. -/
theorem confirmBooking_shape (db : DB) (i : Nat) (now : Int) :
    (confirmBooking db i now).1 = db ∨
    ∃ b, findBooking db i = some b ∧ b.status = BookingStatus.pending ∧
      ((confirmBooking db i now).1 =
          { db with bookings :=
              db.bookings.map (setStatusRow i BookingStatus.expired now) } ∨
        ∃ ev, findEvent db b.eventId = some ev ∧
          confirmedSeats db.bookings b.eventId + b.seats ≤ ev.totalSeats ∧
          (confirmBooking db i now).1 =
            { db with bookings :=
                db.bookings.map (setStatusRow i BookingStatus.confirmed now) }) := by
  unfold confirmBooking
  split
  · exact Or.inl rfl
  · rename_i b hfind
    split
    · exact Or.inl rfl
    · rename_i hpend
      have hp : b.status = BookingStatus.pending := not_not.mp hpend
      split
      · -- deadline passed: status goes to expired whatever the repo returns
        rename_i htime
        rw [repoUpdateStatus_nonconfirm db i BookingStatus.expired now b hfind
          (by intro hcontra; cases hcontra)]
        exact Or.inr ⟨b, hfind, hp, Or.inl rfl⟩
      · split
        · exact Or.inl rfl
        · rename_i ev hev
          split
          · exact Or.inl rfl
          · rename_i havail
            have hide : ev.id = b.eventId := by
              have := List.find?_some hev
              simpa using this
            have hcap : confirmedSeats db.bookings b.eventId + b.seats ≤
                ev.totalSeats := by
              unfold availableSeats at havail
              rw [hide] at havail
              omega
            rw [repoUpdateStatus_confirm_ok db i now b ev hfind hp hev hcap]
            exact Or.inr ⟨b, hfind, hp, Or.inr ⟨ev, hev, hcap, rfl⟩⟩

/-- The `cancelBooking` either leaves the store unchanged or sets the found
pending/confirmed booking's rows to cancelled. -/
theorem cancelBooking_shape (db : DB) (i : Nat) (now : Int) :
    (cancelBooking db i now).1 = db ∨
    ∃ b, findBooking db i = some b ∧
      (b.status = BookingStatus.pending ∨ b.status = BookingStatus.confirmed) ∧
      (cancelBooking db i now).1 =
        { db with bookings :=
            db.bookings.map (setStatusRow i BookingStatus.cancelled now) } := by
  unfold cancelBooking
  split
  · exact Or.inl rfl
  · rename_i b hfind
    split
    · exact Or.inl rfl
    · rename_i hterm
      have hst : b.status = BookingStatus.pending ∨
          b.status = BookingStatus.confirmed := by
        cases h : b.status
        · exact Or.inl rfl
        · exact Or.inr rfl
        · exact absurd (Or.inl h) hterm
        · exact absurd (Or.inr h) hterm
      rw [repoUpdateStatus_nonconfirm db i BookingStatus.cancelled now b hfind
        (by intro hcontra; cases hcontra)]
      exact Or.inr ⟨b, hfind, hst, rfl⟩

/-- The `expireBooking` either leaves the store unchanged or sets the found
booking's rows to expired (with no guard on the current status). -/
theorem expireBooking_shape (db : DB) (i : Nat) (now : Int) :
    (expireBooking db i now).1 = db ∨
    ∃ b, findBooking db i = some b ∧
      (expireBooking db i now).1 =
        { db with bookings :=
            db.bookings.map (setStatusRow i BookingStatus.expired now) } := by
  unfold expireBooking
  rcases repoUpdateStatus_shape db i BookingStatus.expired now with h | ⟨b, h1, h2, _⟩
  · exact Or.inl h
  · exact Or.inr ⟨b, h1, h2⟩

/-- The `updateBookingSeats` either leaves the store unchanged or replaces the
found pending booking's rows with a positive new seat count. -/
theorem updateBookingSeats_shape (db : DB) (i : Nat) (s now : Int) :
    (updateBookingSeats db i s now).1 = db ∨
    ∃ b, findBooking db i = some b ∧ b.status = BookingStatus.pending ∧
      1 ≤ s ∧
      (updateBookingSeats db i s now).1 =
        { db with bookings := db.bookings.map (fun row =>
            if row.id = b.id then { b with seats := s, updatedAt := now }
            else row) } := by
  unfold updateBookingSeats
  split
  · exact Or.inl rfl
  · rename_i hspos
    split
    · exact Or.inl rfl
    · rename_i b hfind
      split
      · exact Or.inl rfl
      · rename_i hpend
        have hp : b.status = BookingStatus.pending := not_not.mp hpend
        split
        · exact Or.inl rfl
        · split
          · exact Or.inl rfl
          · rcases repoUpdate_shape db { b with seats := s } now with h | h
            · exact Or.inl h
            · exact Or.inr ⟨b, hfind, hp, by omega, h⟩

/-! ## Preservation of well-formedness and the capacity invariant -/

theorem WFids_insert (db : DB) (bnew : Booking) (hid : bnew.id = db.nextId)
    (h : WFids db) :
    WFids { db with bookings := db.bookings ++ [bnew],
                    nextId := db.nextId + 1 } := by
  obtain ⟨hbound, hnodupB, hnodupE⟩ := h
  refine ⟨?_, ?_, hnodupE⟩
  · intro b hb
    rcases List.mem_append.mp hb with h1 | h1
    · have := hbound b h1
      simp only
      omega
    · simp only [List.mem_singleton] at h1
      subst h1
      simp [hid]
  · simp only
    rw [List.map_append, List.nodup_append]
    refine ⟨hnodupB, by simp, ?_⟩
    intro a ha hb
    simp only [List.map_cons, List.map_nil, List.mem_singleton] at hb
    rcases List.mem_map.mp ha with ⟨x, hx, rfl⟩
    have := hbound x hx
    rw [hb, hid] at this
    omega

theorem WFids_map (db : DB) (f : Booking → Booking)
    (hid : ∀ b, (f b).id = b.id) (h : WFids db) :
    WFids { db with bookings := db.bookings.map f } := by
  obtain ⟨hbound, hnodupB, hnodupE⟩ := h
  have hmapid : (db.bookings.map f).map Booking.id =
      db.bookings.map Booking.id := by
    rw [List.map_map]
    exact List.map_congr_left (fun b _ => hid b)
  refine ⟨?_, by simp only; rw [hmapid]; exact hnodupB, hnodupE⟩
  intro b hb
  rcases List.mem_map.mp hb with ⟨x, hx, rfl⟩
  simp only
  rw [hid]
  exact hbound x hx

theorem SeatsPos_insert (db : DB) (bnew : Booking) (n : Nat)
    (hs : 1 ≤ bnew.seats) (h : SeatsPos db) :
    SeatsPos { db with bookings := db.bookings ++ [bnew], nextId := n } := by
  intro b hb
  rcases List.mem_append.mp hb with h1 | h1
  · exact h b h1
  · simp only [List.mem_singleton] at h1
    subst h1
    exact hs

theorem SeatsPos_map (db : DB) (f : Booking → Booking)
    (hseats : ∀ b, 1 ≤ b.seats → 1 ≤ (f b).seats) (h : SeatsPos db) :
    SeatsPos { db with bookings := db.bookings.map f } := by
  intro b hb
  rcases List.mem_map.mp hb with ⟨x, hx, rfl⟩
  exact hseats x (h x hx)

theorem CapacityInv_insert (db : DB) (bnew : Booking) (n : Nat)
    (hpend : bnew.status = BookingStatus.pending) (hcap : CapacityInv db) :
    CapacityInv { db with bookings := db.bookings ++ [bnew], nextId := n } := by
  intro e he
  simp only at he ⊢
  rw [confirmedSeats_append]
  have hz : confirmedSeats [bnew] e.id = 0 := by
    simp [confirmedSeats, confContrib, hpend]
  rw [hz, add_zero]
  exact hcap e he

theorem CapacityInv_map_nonconfirm (db : DB) (i : Nat) (st : BookingStatus)
    (now : Int) (hst : st ≠ BookingStatus.confirmed) (hsp : SeatsPos db)
    (hcap : CapacityInv db) :
    CapacityInv { db with
      bookings := db.bookings.map (setStatusRow i st now) } := by
  intro e he
  simp only at he ⊢
  refine le_trans (confirmedSeats_map_le _ _ _ ?_) (hcap e he)
  intro b hb
  by_cases hbi : b.id = i
  · have h1 : confContrib e.id (setStatusRow i st now b) = 0 := by
      simp [setStatusRow, hbi, confContrib, hst]
    rw [h1]
    exact confContrib_nonneg e.id b (hsp b hb)
  · simp [setStatusRow, hbi]

theorem CapacityInv_map_seats (db : DB) (key : Nat) (nb : Booking)
    (hp : nb.status = BookingStatus.pending) (hsp : SeatsPos db)
    (hcap : CapacityInv db) :
    CapacityInv { db with
      bookings := db.bookings.map (fun row => if row.id = key then nb else row) } := by
  intro e he
  simp only at he ⊢
  refine le_trans (confirmedSeats_map_le _ _ _ ?_) (hcap e he)
  intro b hb
  by_cases hbi : b.id = key
  · have h1 : confContrib e.id (if b.id = key then nb else b) = 0 := by
      simp [hbi, confContrib, hp]
    rw [h1]
    exact confContrib_nonneg e.id b (hsp b hb)
  · simp [hbi]

theorem CapacityInv_map_confirm (db : DB) (i : Nat) (now : Int) (b : Booking)
    (ev : Event) (hwf : WFids db) (hfind : findBooking db i = some b)
    (hp : b.status = BookingStatus.pending)
    (hev : findEvent db b.eventId = some ev)
    (hchk : confirmedSeats db.bookings b.eventId + b.seats ≤ ev.totalSeats)
    (hcap : CapacityInv db) :
    CapacityInv { db with
      bookings := db.bookings.map (setStatusRow i BookingStatus.confirmed now) } := by
  intro e he
  simp only at he ⊢
  have hbid : b.id = i := by simpa using List.find?_some hfind
  have keyed := confirmedSeats_map_keyed db.bookings e.id i b
    (setStatusRow i BookingStatus.confirmed now)
    (fun b' hb' => by simp [setStatusRow, hb']) hfind hwf.2.1
  rw [keyed]
  have hcontr : confContrib e.id b = 0 := by simp [confContrib, hp]
  have hupd : setStatusRow i BookingStatus.confirmed now b =
      { b with status := BookingStatus.confirmed, updatedAt := now } := by
    simp [setStatusRow, hbid]
  rw [hupd, hcontr]
  by_cases heb : b.eventId = e.id
  · have h2 : confContrib e.id
        { b with status := BookingStatus.confirmed, updatedAt := now } =
        b.seats := by
      simp [confContrib, heb]
    rw [h2]
    have heve : ev = e := by
      have h1 : findEvent db e.id = some e := findEvent_self db e hwf.2.2 he
      rw [← heb] at h1
      rw [hev] at h1
      exact Option.some.inj h1
    rw [heb] at hchk
    rw [heve] at hchk
    omega
  · have h2 : confContrib e.id
        { b with status := BookingStatus.confirmed, updatedAt := now } = 0 := by
      simp [confContrib, heb]
    rw [h2]
    have := hcap e he
    omega

theorem CapacityInv_map_reconfirm (db : DB) (i : Nat) (now : Int) (b : Booking)
    (hwf : WFids db) (hfind : findBooking db i = some b)
    (hc : b.status = BookingStatus.confirmed) (hcap : CapacityInv db) :
    CapacityInv { db with
      bookings := db.bookings.map (setStatusRow i BookingStatus.confirmed now) } := by
  intro e he
  simp only at he ⊢
  have hbid : b.id = i := by simpa using List.find?_some hfind
  have keyed := confirmedSeats_map_keyed db.bookings e.id i b
    (setStatusRow i BookingStatus.confirmed now)
    (fun b' hb' => by simp [setStatusRow, hb']) hfind hwf.2.1
  rw [keyed]
  have hupd : setStatusRow i BookingStatus.confirmed now b =
      { b with status := BookingStatus.confirmed, updatedAt := now } := by
    simp [setStatusRow, hbid]
  have heq : confContrib e.id
      { b with status := BookingStatus.confirmed, updatedAt := now } =
      confContrib e.id b := by
    simp [confContrib, hc]
  rw [hupd, heq]
  have := hcap e he
  omega

/-- The per-step restriction forced by the C1 counterexample: booking
requests carry at least one seat (the transport binding's `min=1`), and the
admin status update sets `confirmed` only on bookings currently pending or
confirmed. -/
def CapGuard (db : DB) : BookingOp → Prop
  | BookingOp.book _ _ s _ _ => 1 ≤ s
  | BookingOp.updStatus i st _ =>
      st = BookingStatus.confirmed →
        ∀ b, findBooking db i = some b →
          b.status = BookingStatus.pending ∨ b.status = BookingStatus.confirmed
  | _ => True

theorem WFids_runOp (db : DB) (op : BookingOp) (h : WFids db) :
    WFids (runOp db op) := by
  cases op with
  | book e u s t now =>
      rcases bookSeats_shape db e u s t now with hs | ⟨t', hs⟩
      · simp only [runOp]; rw [hs]; exact h
      · simp only [runOp]; rw [hs]; exact WFids_insert db _ rfl h
  | confirm i now =>
      rcases confirmBooking_shape db i now with hs | ⟨b, _, _, hcase⟩
      · simp only [runOp]; rw [hs]; exact h
      · rcases hcase with hs | ⟨ev, _, _, hs⟩ <;>
          (simp only [runOp]; rw [hs];
           exact WFids_map db _ (setStatusRow_id _ _ _) h)
  | cancel i now =>
      rcases cancelBooking_shape db i now with hs | ⟨b, _, _, hs⟩
      · simp only [runOp]; rw [hs]; exact h
      · simp only [runOp]; rw [hs]
        exact WFids_map db _ (setStatusRow_id _ _ _) h
  | expire i now =>
      rcases expireBooking_shape db i now with hs | ⟨b, _, hs⟩
      · simp only [runOp]; rw [hs]; exact h
      · simp only [runOp]; rw [hs]
        exact WFids_map db _ (setStatusRow_id _ _ _) h
  | updSeats i s now =>
      rcases updateBookingSeats_shape db i s now with hs | ⟨b, _, _, _, hs⟩
      · simp only [runOp]; rw [hs]; exact h
      · simp only [runOp]; rw [hs]
        exact WFids_map db _
          (fun row => by by_cases hr : row.id = b.id <;> simp [hr]) h
  | updStatus i st now =>
      rcases repoUpdateStatus_shape db i st now with hs | ⟨b, _, hs, _⟩
      · simp only [runOp, updateBookingStatus]; rw [hs]; exact h
      · simp only [runOp, updateBookingStatus]; rw [hs]
        exact WFids_map db _ (setStatusRow_id _ _ _) h

theorem SeatsPos_runOp (db : DB) (op : BookingOp) (hg : CapGuard db op)
    (h : SeatsPos db) : SeatsPos (runOp db op) := by
  cases op with
  | book e u s t now =>
      rcases bookSeats_shape db e u s t now with hs | ⟨t', hs⟩
      · simp only [runOp]; rw [hs]; exact h
      · simp only [runOp]; rw [hs]; exact SeatsPos_insert db _ _ hg h
  | confirm i now =>
      rcases confirmBooking_shape db i now with hs | ⟨b, _, _, hcase⟩
      · simp only [runOp]; rw [hs]; exact h
      · rcases hcase with hs | ⟨ev, _, _, hs⟩ <;>
          (simp only [runOp]; rw [hs];
           exact SeatsPos_map db _
             (fun b hb => by rw [setStatusRow_seats]; exact hb) h)
  | cancel i now =>
      rcases cancelBooking_shape db i now with hs | ⟨b, _, _, hs⟩
      · simp only [runOp]; rw [hs]; exact h
      · simp only [runOp]; rw [hs]
        exact SeatsPos_map db _
          (fun b hb => by rw [setStatusRow_seats]; exact hb) h
  | expire i now =>
      rcases expireBooking_shape db i now with hs | ⟨b, _, hs⟩
      · simp only [runOp]; rw [hs]; exact h
      · simp only [runOp]; rw [hs]
        exact SeatsPos_map db _
          (fun b hb => by rw [setStatusRow_seats]; exact hb) h
  | updSeats i s now =>
      rcases updateBookingSeats_shape db i s now with hs | ⟨b, _, _, hspos, hs⟩
      · simp only [runOp]; rw [hs]; exact h
      · simp only [runOp]; rw [hs]
        refine SeatsPos_map db _ (fun row hrow => ?_) h
        by_cases hr : row.id = b.id
        · simpa [hr] using hspos
        · simpa [hr] using hrow
  | updStatus i st now =>
      rcases repoUpdateStatus_shape db i st now with hs | ⟨b, _, hs, _⟩
      · simp only [runOp, updateBookingStatus]; rw [hs]; exact h
      · simp only [runOp, updateBookingStatus]; rw [hs]
        exact SeatsPos_map db _
          (fun b hb => by rw [setStatusRow_seats]; exact hb) h

theorem CapacityInv_runOp (db : DB) (op : BookingOp) (hwf : WFids db)
    (hsp : SeatsPos db) (hg : CapGuard db op) (hcap : CapacityInv db) :
    CapacityInv (runOp db op) := by
  cases op with
  | book e u s t now =>
      rcases bookSeats_shape db e u s t now with hs | ⟨t', hs⟩
      · simp only [runOp]; rw [hs]; exact hcap
      · simp only [runOp]; rw [hs]; exact CapacityInv_insert db _ _ rfl hcap
  | confirm i now =>
      rcases confirmBooking_shape db i now with hs | ⟨b, hfind, hp, hcase⟩
      · simp only [runOp]; rw [hs]; exact hcap
      · rcases hcase with hs | ⟨ev, hev, hchk, hs⟩
        · simp only [runOp]; rw [hs]
          exact CapacityInv_map_nonconfirm db i BookingStatus.expired now
            (by intro hc; cases hc) hsp hcap
        · simp only [runOp]; rw [hs]
          exact CapacityInv_map_confirm db i now b ev hwf hfind hp hev hchk hcap
  | cancel i now =>
      rcases cancelBooking_shape db i now with hs | ⟨b, _, _, hs⟩
      · simp only [runOp]; rw [hs]; exact hcap
      · simp only [runOp]; rw [hs]
        exact CapacityInv_map_nonconfirm db i BookingStatus.cancelled now
          (by intro hc; cases hc) hsp hcap
  | expire i now =>
      rcases expireBooking_shape db i now with hs | ⟨b, _, hs⟩
      · simp only [runOp]; rw [hs]; exact hcap
      · simp only [runOp]; rw [hs]
        exact CapacityInv_map_nonconfirm db i BookingStatus.expired now
          (by intro hc; cases hc) hsp hcap
  | updSeats i s now =>
      rcases updateBookingSeats_shape db i s now with hs | ⟨b, hfind, hp, _, hs⟩
      · simp only [runOp]; rw [hs]; exact hcap
      · simp only [runOp]; rw [hs]
        exact CapacityInv_map_seats db b.id
          { b with seats := s, updatedAt := now } (by simpa using hp) hsp hcap
  | updStatus i st now =>
      rcases repoUpdateStatus_shape db i st now with hs | ⟨b, hfind, hs, hchk⟩
      · simp only [runOp, updateBookingStatus]; rw [hs]; exact hcap
      · cases st with
        | pending =>
            simp only [runOp, updateBookingStatus]; rw [hs]
            exact CapacityInv_map_nonconfirm db i BookingStatus.pending now
              (by intro hc; cases hc) hsp hcap
        | cancelled =>
            simp only [runOp, updateBookingStatus]; rw [hs]
            exact CapacityInv_map_nonconfirm db i BookingStatus.cancelled now
              (by intro hc; cases hc) hsp hcap
        | expired =>
            simp only [runOp, updateBookingStatus]; rw [hs]
            exact CapacityInv_map_nonconfirm db i BookingStatus.expired now
              (by intro hc; cases hc) hsp hcap
        | confirmed =>
            rcases hg rfl b hfind with hp | hc
            · obtain ⟨ev, hev, hcheck⟩ := hchk hp rfl
              simp only [runOp, updateBookingStatus]; rw [hs]
              exact CapacityInv_map_confirm db i now b ev hwf hfind hp hev
                hcheck hcap
            · simp only [runOp, updateBookingStatus]; rw [hs]
              exact CapacityInv_map_reconfirm db i now b hwf hfind hc hcap

/-! ## C1 — capacity invariant P2 -/

/-- An event with a single seat and two users, no bookings yet. -/
def dbZero : DB :=
  { events := [{ id := 1, date := 1000000, totalSeats := 1 }],
    users := [1, 2], bookings := [], nextId := 1 }

/-- The store after: user 1 books the seat, the booking expires, user 2
books and confirms the seat, then the admin status update re-confirms the
expired booking — no seat check fires on that last step. -/
def dbViol : DB :=
  runOp (runOp (runOp (runOp (runOp dbZero
    (BookingOp.book 1 1 1 30 10))
    (BookingOp.expire 1 20))
    (BookingOp.book 1 2 1 30 30))
    (BookingOp.confirm 2 40))
    (BookingOp.updStatus 1 BookingStatus.confirmed 50)

/-- C1 (counterexample).  From a store satisfying P2, the sequence
BookSeats, ExpireBooking, BookSeats, ConfirmBooking, UpdateBookingStatus
(confirmed) — all public booking operations — reaches a store where the
confirmed-seat sum (2) exceeds the event's `total_seats` (1):
`UpdateBookingStatus` applies expired→confirmed without any seat check. -/
theorem C1_capacity_counterexample :
    CapacityInv dbZero ∧ Reaches dbZero dbViol ∧ ¬ CapacityInv dbViol := by
  refine ⟨by decide, ?_, by decide⟩
  exact Trace.step (BookingOp.book 1 1 1 30 10) trivial
    (Trace.step (BookingOp.expire 1 20) trivial
      (Trace.step (BookingOp.book 1 2 1 30 30) trivial
        (Trace.step (BookingOp.confirm 2 40) trivial
          (Trace.step (BookingOp.updStatus 1 BookingStatus.confirmed 50) trivial
            (Trace.refl dbViol)))))

/-- C1 (amended).  From a well-formed store (duplicate-free booking and
event ids, serial counter ahead of every booking id, every booking with at
least one seat) satisfying P2, any sequence of public booking operations
preserves P2, provided each BookSeats request carries at least one seat (the
transport binding enforces `min=1`) and UpdateBookingStatus sets `confirmed`
only on bookings currently pending or confirmed — the transitions the spec's
state machine admits.  Without that last proviso P2 fails (see the
counterexample). -/
theorem C1_capacity_amended (db db' : DB) (ht : Trace CapGuard db db')
    (hwf : WFids db) (hsp : SeatsPos db) (hcap : CapacityInv db) :
    CapacityInv db' := by
  induction ht with
  | refl db => exact hcap
  | step op hgd htail ih =>
      exact ih (WFids_runOp _ _ hwf) (SeatsPos_runOp _ _ hgd hsp)
        (CapacityInv_runOp _ _ hwf hsp hgd hcap)

/-- C1 (witness): the amended theorem applied to `dbZero` and the one-step
trace booking one seat for user 1. -/
theorem C1_capacity_amended_witness :
    CapacityInv (runOp dbZero (BookingOp.book 1 1 1 30 10)) :=
  C1_capacity_amended dbZero _
    (Trace.step (BookingOp.book 1 1 1 30 10) (le_refl (1 : Int))
      (Trace.refl _))
    (by decide) (by decide) (by decide)

/-! ## C5 — terminal absorption P4 -/

/-- The per-step restriction forced by the C5 counterexample: the admin
status update never sets `pending`. -/
def NoPendGuard (_ : DB) : BookingOp → Prop
  | BookingOp.updStatus _ st _ => st ≠ BookingStatus.pending
  | _ => True

/-- No booking row with id `j` is pending. -/
def NonPendingAt (db : DB) (j : Nat) : Prop :=
  ∀ b ∈ db.bookings, b.id = j → b.status ≠ BookingStatus.pending

theorem nextId_le_runOp (db : DB) (op : BookingOp) :
    db.nextId ≤ (runOp db op).nextId := by
  cases op with
  | book e u s t now =>
      rcases bookSeats_shape db e u s t now with hs | ⟨t', hs⟩
      · simp only [runOp]; rw [hs]
      · simp only [runOp]; rw [hs]; exact Nat.le_succ _
  | confirm i now =>
      rcases confirmBooking_shape db i now with hs | ⟨b, _, _, hcase⟩
      · simp only [runOp]; rw [hs]
      · rcases hcase with hs | ⟨ev, _, _, hs⟩ <;>
          (simp only [runOp]; rw [hs])
  | cancel i now =>
      rcases cancelBooking_shape db i now with hs | ⟨b, _, _, hs⟩ <;>
        (simp only [runOp]; rw [hs])
  | expire i now =>
      rcases expireBooking_shape db i now with hs | ⟨b, _, hs⟩ <;>
        (simp only [runOp]; rw [hs])
  | updSeats i s now =>
      rcases updateBookingSeats_shape db i s now with hs | ⟨b, _, _, _, hs⟩ <;>
        (simp only [runOp]; rw [hs])
  | updStatus i st now =>
      rcases repoUpdateStatus_shape db i st now with hs | ⟨b, _, hs, _⟩ <;>
        (simp only [runOp, updateBookingStatus]; rw [hs])

theorem NonPendingAt_map_status (db : DB) (j i : Nat) (st : BookingStatus)
    (now : Int) (hst : st ≠ BookingStatus.pending) (h : NonPendingAt db j) :
    NonPendingAt
      { db with bookings := db.bookings.map (setStatusRow i st now) } j := by
  intro b hb hid
  rcases List.mem_map.mp hb with ⟨x, hx, rfl⟩
  by_cases hxi : x.id = i
  · simpa [setStatusRow, hxi] using hst
  · rw [setStatusRow_id] at hid
    simpa [setStatusRow, hxi] using h x hx hid

theorem NonPendingAt_runOp (db : DB) (op : BookingOp) (j : Nat)
    (hj : j < db.nextId) (hg : NoPendGuard db op) (h : NonPendingAt db j) :
    NonPendingAt (runOp db op) j := by
  cases op with
  | book e u s t now =>
      rcases bookSeats_shape db e u s t now with hs | ⟨t', hs⟩
      · simp only [runOp]; rw [hs]; exact h
      · simp only [runOp]; rw [hs]
        intro b hb hid
        rcases List.mem_append.mp hb with h1 | h1
        · exact h b h1 hid
        · simp only [List.mem_singleton] at h1
          subst h1
          simp only [mkPendingBooking] at hid
          omega
  | confirm i now =>
      rcases confirmBooking_shape db i now with hs | ⟨b, _, _, hcase⟩
      · simp only [runOp]; rw [hs]; exact h
      · rcases hcase with hs | ⟨ev, _, _, hs⟩ <;> (simp only [runOp]; rw [hs])
        · exact NonPendingAt_map_status db j i BookingStatus.expired now
            (by intro hc; cases hc) h
        · exact NonPendingAt_map_status db j i BookingStatus.confirmed now
            (by intro hc; cases hc) h
  | cancel i now =>
      rcases cancelBooking_shape db i now with hs | ⟨b, _, _, hs⟩
      · simp only [runOp]; rw [hs]; exact h
      · simp only [runOp]; rw [hs]
        exact NonPendingAt_map_status db j i BookingStatus.cancelled now
          (by intro hc; cases hc) h
  | expire i now =>
      rcases expireBooking_shape db i now with hs | ⟨b, _, hs⟩
      · simp only [runOp]; rw [hs]; exact h
      · simp only [runOp]; rw [hs]
        exact NonPendingAt_map_status db j i BookingStatus.expired now
          (by intro hc; cases hc) h
  | updSeats i s now =>
      rcases updateBookingSeats_shape db i s now with hs | ⟨b, hfind, hp, _, hs⟩
      · simp only [runOp]; rw [hs]; exact h
      · simp only [runOp]; rw [hs]
        intro row hrow hid
        rcases List.mem_map.mp hrow with ⟨x, hx, rfl⟩
        by_cases hxi : x.id = b.id
        · exfalso
          have hbmem : b ∈ db.bookings := List.mem_of_find?_eq_some hfind
          have hbid : b.id = j := by simpa [hxi] using hid
          exact h b hbmem hbid hp
        · simp only [if_neg hxi] at hid ⊢
          exact h x hx hid
  | updStatus i st now =>
      rcases repoUpdateStatus_shape db i st now with hs | ⟨b, _, hs, _⟩
      · simp only [runOp, updateBookingStatus]; rw [hs]; exact h
      · simp only [runOp, updateBookingStatus]; rw [hs]
        exact NonPendingAt_map_status db j i st now hg h

theorem NonPendingAt_trace (db db' : DB) (ht : Trace NoPendGuard db db')
    (j : Nat) (hj : j < db.nextId) (h : NonPendingAt db j) :
    NonPendingAt db' j := by
  induction ht with
  | refl db => exact h
  | step op hgd htail ih =>
      exact ih (lt_of_lt_of_le hj (nextId_le_runOp _ op))
        (NonPendingAt_runOp _ op j hj hgd h)

/-- C5 (counterexample).  One public operation —
`UpdateBookingStatus(1, pending)` — takes the confirmed booking of `dbConf`
back to `pending`: the repository applies every transition other than
pending→confirmed unconditionally. -/
theorem C5_terminal_counterexample :
    Reaches dbConf (runOp dbConf (BookingOp.updStatus 1 BookingStatus.pending 50)) ∧
    findBooking dbConf 1 =
      some { id := 1, eventId := 1, userId := 1, seats := 2,
             status := BookingStatus.confirmed, expiresAt := 40,
             reservationTimeout := 30, updatedAt := 0 } ∧
    findBooking
        (runOp dbConf (BookingOp.updStatus 1 BookingStatus.pending 50)) 1 =
      some { id := 1, eventId := 1, userId := 1, seats := 2,
             status := BookingStatus.pending, expiresAt := 40,
             reservationTimeout := 30, updatedAt := 50 } := by
  refine ⟨?_, rfl, rfl⟩
  exact Trace.step (BookingOp.updStatus 1 BookingStatus.pending 50) trivial
    (Trace.refl _)

/-- C5 (amended).  In a well-formed store, once a booking is in a terminal
status (confirmed, cancelled or expired — i.e. not pending), no sequence of
public operations in which `UpdateBookingStatus` never targets `pending`
ever returns any row with that booking's id to `pending`.  Without that
proviso P4 fails (see the counterexample). -/
theorem C5_terminal_amended (db db' : DB) (ht : Trace NoPendGuard db db')
    (hwf : WFids db) (b : Booking) (hb : b ∈ db.bookings)
    (hterm : b.status ≠ BookingStatus.pending) :
    ∀ b' ∈ db'.bookings, b'.id = b.id → b'.status ≠ BookingStatus.pending := by
  have hstart : NonPendingAt db b.id := by
    intro x hx hxid
    have hxb : x = b := List.inj_on_of_nodup_map hwf.2.1 hx hb hxid
    rw [hxb]
    exact hterm
  exact NonPendingAt_trace db db' ht b.id (hwf.1 b hb) hstart

/-- C5 (witness): after expiring `dbConf`'s confirmed booking, the row with
id 1 is not pending. -/
theorem C5_terminal_amended_witness :
    ({ id := 1, eventId := 1, userId := 1, seats := 2,
       status := BookingStatus.expired, expiresAt := 40,
       reservationTimeout := 30, updatedAt := 99 } : Booking).status ≠
      BookingStatus.pending := by
  have h := C5_terminal_amended dbConf
    (runOp dbConf (BookingOp.expire 1 99))
    (Trace.step (BookingOp.expire 1 99) trivial (Trace.refl _))
    (by decide)
    { id := 1, eventId := 1, userId := 1, seats := 2,
      status := BookingStatus.confirmed, expiresAt := 40,
      reservationTimeout := 30, updatedAt := 0 }
    (by decide) (by decide)
  exact h _ (by decide) rfl

end WBL3
